import Mathlib

set_option maxHeartbeats 1000000

/-!
Verification of the paper-trading decision engine (`backend/live_bot.py`).

The engine is shallowly embedded: prices, contract counts and clock values are
`Int` (Python integers); money amounts, which Python holds in floats, are
modelled as exact rationals `ℚ`; Python `int(...)` truncation toward zero is
`pyInt`; the `try/except` clock parsing and the division sites that can raise
`ZeroDivisionError` are modelled with `Except Unit`.  Database calls are
side-effect-free from the engine's point of view and are dropped; broadcast
notifications are modelled as an explicit event list, emitted only when a
broadcast function is attached (`Config.hasBroadcast`).
-/

namespace PaperTrader

/-- Python `int(x)` applied to a rational value: truncation toward zero. -/
def pyInt (q : ℚ) : Int := if 0 ≤ q then ⌊q⌋ else -⌊-q⌋

/-- ASCII whitespace, as stripped by Python `str.strip()`. -/
def pyWs (c : Char) : Bool :=
  c = ' ' ∨ c = '\t' ∨ c = '\n' ∨ c = '\r' ∨ c = '\x0b' ∨ c = '\x0c'

/-- Drop leading whitespace characters. -/
def dropWsLeft : List Char → List Char
  | [] => []
  | c :: rest => if pyWs c then dropWsLeft rest else c :: rest

/-- Python `str.strip()` on a character list. -/
def pyStrip (cs : List Char) : List Char :=
  (dropWsLeft (dropWsLeft cs).reverse).reverse

/-- Python `str.split(':')`: split on every colon, keeping empty pieces. -/
def splitColon : List Char → List (List Char)
  | [] => [[]]
  | c :: rest =>
    let r := splitColon rest
    if c = ':' then [] :: r
    else
      match r with
      | [] => [[c]]
      | h :: t => (c :: h) :: t

/-- Numeric value of a digit list (most significant first), assuming digits. -/
def digitsVal (cs : List Char) : Int :=
  cs.foldl (fun acc c => acc * 10 + ((c.toNat : Int) - 48)) 0

/-- Python `int(s)` on a string: optional surrounding whitespace, optional
sign, then a nonempty run of digits; anything else raises (here: `none`).
Python's underscore digit separators are not modelled. -/
def pyParseInt (cs : List Char) : Option Int :=
  let s := pyStrip cs
  let (sign, body) :=
    match s with
    | '-' :: rest => ((-1 : Int), rest)
    | '+' :: rest => ((1 : Int), rest)
    | _ => ((1 : Int), s)
  if body = [] then none
  else if body.all Char.isDigit then some (sign * digitsVal body)
  else none

/-- Python `int(float(s))` on a string: a decimal literal with an optional
sign and an optional fractional part, truncated toward zero (so the result is
the signed integer part).  Exponent forms and `inf`/`nan` are not modelled;
for them the engine falls into the same 900-second default as a parse
failure. -/
def pyParseFloatInt (cs : List Char) : Option Int :=
  let s := pyStrip cs
  let (sign, body) :=
    match s with
    | '-' :: rest => ((-1 : Int), rest)
    | '+' :: rest => ((1 : Int), rest)
    | _ => ((1 : Int), s)
  match body.splitOn '.' with
  | [ip] =>
    if ip ≠ [] ∧ ip.all Char.isDigit then some (sign * digitsVal ip) else none
  | [ip, fp] =>
    if (ip ≠ [] ∨ fp ≠ []) ∧ ip.all Char.isDigit ∧ fp.all Char.isDigit then
      some (sign * digitsVal ip)
    else none
  | _ => none

/-- Clock-string parsing of `_calculate_time_remaining`: `MM:SS` (or bare
seconds) with any parse failure defaulting to 900 via the `except` clause. -/
def parseClockSeconds (clock : String) : Int :=
  let cs := clock.toList
  if cs.contains ':' then
    let parts := splitColon (pyStrip cs)
    match pyParseInt (parts.headD []) with
    | none => 900
    | some mins =>
      if parts.length > 1 then
        match pyParseInt (parts.getD 1 []) with
        | some secs => mins * 60 + secs
        | none => 900
      else mins * 60
  else
    match pyParseFloatInt cs with
    | some n => n
    | none => 900

/-- `LivePaperBot._calculate_time_remaining`. -/
def calculateTimeRemaining (quarter : Int) (clock : String) : Int :=
  if quarter = 0 then 3600
  else if quarter ≥ 5 then 0
  else max 0 (min 3600 ((4 - quarter) * 900 + parseClockSeconds clock))

end PaperTrader

namespace PaperTrader

/-- Position side: long holds the home "yes" contract, short the "no" side. -/
inductive Side where
  | long
  | short
deriving DecidableEq

/-- One tick record, with the fields the engine reads (typed per the tick
producer interface; `tick` is the sequence number). -/
structure Tick where
  tick : Int
  homePrice : Int
  awayPrice : Int
  quarter : Int
  clock : String
  scoreDiff : Int
  possessionTeamId : String
  homeTeam : String
deriving DecidableEq

/-- Strategy configuration (constructor parameters of `LivePaperBot`).
`hasBroadcast` models whether a broadcast function was attached and
`hasUserId` whether a user id was supplied. -/
structure Config where
  momentumThreshold : Int
  initialStop : Int
  profitTarget : Int
  breakevenTrigger : Int
  positionSizePct : ℚ
  enableTimeScaling : Bool
  earlyGameStopMultiplier : ℚ
  lateGameStopMultiplier : ℚ
  earlyGameTargetMultiplier : ℚ
  lateGameTargetMultiplier : ℚ
  enableGameContext : Bool
  possessionBiasCents : Int
  scoreVolatilityMultiplier : ℚ
  favoriteFadeThreshold : Int
  underdogSupportThreshold : Int
  enableDca : Bool
  dcaMaxAdditions : Int
  dcaTriggerCents : Int
  dcaSizeMultiplier : ℚ
  dcaMinTimeRemaining : Int
  dcaMaxTotalRiskPct : ℚ
  hasBroadcast : Bool
  hasUserId : Bool
deriving DecidableEq

/-- One recorded DCA fill (`dca_history` entries). -/
structure DcaFill where
  price : Int
  contracts : Int
  cost : ℚ
  tick : Int
deriving DecidableEq

/-- The open-position dictionary.  `cost` is the initial fill's cost (never
updated by DCA in the source); `totalCost` accumulates every fill. -/
structure Position where
  side : Side
  entryPrice : Int
  contracts : Int
  cost : ℚ
  entryTick : Int
  high : Option Int
  low : Option Int
  dcaCount : Nat
  avgEntryPrice : Int
  totalCost : ℚ
  dcaHistory : List DcaFill
deriving DecidableEq

/-- Mutable engine state of `LivePaperBot`. -/
structure BotState where
  bankroll : ℚ
  startingBankroll : ℚ
  position : Option Position
  priceHistory : List Int
  openingHomePrice : Option Int
  openingAwayPrice : Option Int
  firstTickReceived : Bool
  isActive : Bool
  totalTrades : Int
  wins : Int
  losses : Int
  totalPnl : ℚ
deriving DecidableEq

/-- Payload of the wallet snapshot broadcast (`get_wallet_status`). -/
structure WalletStatus where
  bankroll : ℚ
  startingBankroll : ℚ
  positionValue : ℚ
  unrealizedPnl : ℚ
  realizedPnl : ℚ
  totalPnl : ℚ
  totalValue : ℚ
  totalReturnPct : ℚ
  winRate : ℚ
deriving DecidableEq

/-- Broadcast events emitted by the engine. -/
inductive Event where
  | entryOpened (side : Side) (price : Int) (contracts : Int) (cost : ℚ)
      (momentum : Int) (bankroll : ℚ)
  | positionClosed (side : Side) (entryPrice : Int) (exitPrice : Int)
      (contracts : Int) (pnl : ℚ) (reason : String) (bankroll : ℚ)
  | dcaAdded (side : Side) (addPrice : Int) (addContracts : Int) (addCost : ℚ)
      (newAvgEntry : Int) (totalContracts : Int) (dcaCount : Nat)
      (bankroll : ℚ) (timeRemaining : Int)
  | walletSnapshot (status : WalletStatus)
  | lowBalanceWarning (bankroll : ℚ)
deriving DecidableEq

/-- Recognize `positionClosed` events. -/
def isClosedEvent : Event → Bool
  | .positionClosed _ _ _ _ _ _ _ => true
  | _ => false

/-- Fresh engine state at construction time (`__init__`). -/
def initState (bankroll : ℚ) : BotState :=
  { bankroll := bankroll
    startingBankroll := bankroll
    position := none
    priceHistory := []
    openingHomePrice := none
    openingAwayPrice := none
    firstTickReceived := false
    isActive := true
    totalTrades := 0
    wins := 0
    losses := 0
    totalPnl := 0 }

end PaperTrader

namespace PaperTrader

/-- `LivePaperBot._calculate_dynamic_stop`. -/
def calculateDynamicStop (cfg : Config) (baseStop : Int) (t : Tick) : Int :=
  if cfg.enableTimeScaling = false then baseStop
  else
    let timeRemaining := calculateTimeRemaining t.quarter t.clock
    let timeFrac : ℚ := (timeRemaining : ℚ) / 3600
    let multiplier : ℚ :=
      if timeFrac ≥ 1 / 2 then cfg.earlyGameStopMultiplier
      else 1 + ((1 / 2 - timeFrac) / (1 / 2)) * (cfg.lateGameStopMultiplier - 1)
    max 3 (min 20 (pyInt ((baseStop : ℚ) * multiplier)))

/-- `LivePaperBot._calculate_dynamic_target`. -/
def calculateDynamicTarget (cfg : Config) (baseTarget : Int) (t : Tick) : Int :=
  if cfg.enableTimeScaling = false then baseTarget
  else
    let timeRemaining := calculateTimeRemaining t.quarter t.clock
    let timeFrac : ℚ := (timeRemaining : ℚ) / 3600
    let multiplier : ℚ :=
      if timeFrac ≥ 1 / 2 then cfg.earlyGameTargetMultiplier
      else 1 + ((1 / 2 - timeFrac) / (1 / 2)) * (cfg.lateGameTargetMultiplier - 1)
    max 5 (min 30 (pyInt ((baseTarget : ℚ) * multiplier)))

/-- Result record of `_calculate_game_context_score`. -/
structure GameContext where
  timeRemaining : Int
  timeQuartile : Int
  possessionFactor : ℚ
  volatilityFactor : ℚ
  marketSentiment : String
deriving DecidableEq

/-- `LivePaperBot._calculate_game_context_score`.  Python truthiness of
`self.position`, of the team-id strings and of `self.opening_home_price`
(`None` or `0` are falsy) is made explicit. -/
def calculateGameContextScore (cfg : Config) (st : BotState) (t : Tick) :
    GameContext :=
  let timeRemaining := calculateTimeRemaining t.quarter t.clock
  let timeQuartile := min 3 (pyInt (((3600 : ℚ) - (timeRemaining : ℚ)) / 900))
  let possessionFactor : ℚ :=
    match st.position with
    | some pos =>
      if cfg.enableGameContext ∧ t.possessionTeamId ≠ "" ∧ t.homeTeam ≠ "" then
        if (pos.side = Side.long ∧ t.possessionTeamId = t.homeTeam) ∨
            (pos.side = Side.short ∧ t.possessionTeamId ≠ t.homeTeam) then
          1 + (cfg.possessionBiasCents : ℚ) / 100
        else 1
      else 1
    | none => 1
  let scoreDiff := |t.scoreDiff|
  let volatilityFactor : ℚ :=
    if scoreDiff > 14 then 9 / 10
    else if 7 ≤ scoreDiff ∧ scoreDiff ≤ 14 then cfg.scoreVolatilityMultiplier
    else 1
  let marketSentiment : String :=
    match st.openingHomePrice with
    | some p =>
      if p ≠ 0 then
        if p ≥ cfg.favoriteFadeThreshold then "fade" else "follow"
      else "follow"
    | none => "follow"
  { timeRemaining := timeRemaining
    timeQuartile := timeQuartile
    possessionFactor := possessionFactor
    volatilityFactor := volatilityFactor
    marketSentiment := marketSentiment }

/-- Element at Python index `-k` of a list (`price_history[-k]`); the default
is only reached when the list is shorter than `k`, which every caller rules
out first. -/
def negIdx (l : List Int) (k : Nat) : Int := l.getD (l.length - k) 0

/-- Append a price and keep the 10 most recent (`on_tick` history update). -/
def pushPrice (l : List Int) (p : Int) : List Int :=
  let appended := l ++ [p]
  if appended.length > 10 then appended.drop (appended.length - 10) else appended

/-- `LivePaperBot._execute_exit`: book proceeds and realized pnl, bump the
counters, emit the exit event and clear the position.  Note the source
computes `pnl` from `pos['cost']` (the initial fill), not `pos['total_cost']`. -/
def executeExit (cfg : Config) (st : BotState) (pos : Position) (price : Int)
    (reason : String) : BotState × List Event :=
  let proceeds : ℚ :=
    match pos.side with
    | Side.long => (pos.contracts : ℚ) * (price : ℚ) / 100
    | Side.short => (pos.contracts : ℚ) * ((100 : ℚ) - (price : ℚ)) / 100
  let pnl := proceeds - pos.cost
  let bankroll := st.bankroll + proceeds
  let st' :=
    { st with
      bankroll := bankroll
      totalPnl := st.totalPnl + pnl
      totalTrades := st.totalTrades + 1
      wins := if pnl > 0 then st.wins + 1 else st.wins
      losses := if pnl < 0 then st.losses + 1 else st.losses
      position := none }
  (st',
    if cfg.hasBroadcast then
      [Event.positionClosed pos.side pos.entryPrice price pos.contracts pnl
        reason bankroll]
    else [])

/-- `LivePaperBot._check_exit` for the position currently held: update the
favorable watermark, compute the dynamic stop/target, and exit when a
condition fires. -/
def checkExit (cfg : Config) (st : BotState) (pos : Position) (price : Int)
    (t : Tick) : BotState × List Event :=
  let entryP := pos.avgEntryPrice
  let currentStop := calculateDynamicStop cfg cfg.initialStop t
  let currentTarget := calculateDynamicTarget cfg cfg.profitTarget t
  match pos.side with
  | Side.long =>
    let gain := price - entryP
    let pos := { pos with high := some (max (pos.high.getD pos.entryPrice) price) }
    let st := { st with position := some pos }
    let stopPrice := if gain ≥ cfg.breakevenTrigger then entryP else entryP - currentStop
    let stopType := if gain ≥ cfg.breakevenTrigger then "BREAKEVEN" else "STOP"
    if gain ≥ currentTarget then executeExit cfg st pos price "PROFIT"
    else if price ≤ stopPrice then executeExit cfg st pos price stopType
    else (st, [])
  | Side.short =>
    let gain := entryP - price
    let pos := { pos with low := some (min (pos.low.getD pos.entryPrice) price) }
    let st := { st with position := some pos }
    let stopPrice := if gain ≥ cfg.breakevenTrigger then entryP else entryP + currentStop
    let stopType := if gain ≥ cfg.breakevenTrigger then "BREAKEVEN" else "STOP"
    if gain ≥ currentTarget then executeExit cfg st pos price "PROFIT"
    else if price ≥ stopPrice then executeExit cfg st pos price stopType
    else (st, [])

/-- Long-entry execution of `_check_entry`: size from the current bankroll,
drop the signal when it rounds below one contract, otherwise create the
position and deduct the cost. -/
def enterLong (cfg : Config) (st : BotState) (price : Int) (t : Tick)
    (momentum : Int) : BotState × List Event :=
  let positionSize := st.bankroll * cfg.positionSizePct
  let contracts := pyInt (positionSize / (price : ℚ) * 100)
  if contracts < 1 then (st, [])
  else
    let cost : ℚ := (contracts : ℚ) * (price : ℚ) / 100
    let pos : Position :=
      { side := Side.long
        entryPrice := price
        contracts := contracts
        cost := cost
        entryTick := t.tick
        high := some price
        low := none
        dcaCount := 0
        avgEntryPrice := price
        totalCost := cost
        dcaHistory := [] }
    let bankroll := st.bankroll - cost
    ({ st with position := some pos, bankroll := bankroll },
      if cfg.hasBroadcast then
        [Event.entryOpened Side.long price contracts cost momentum bankroll]
      else [])

/-- Short-entry execution of `_check_entry`: same, buying the no side at
`100 - price`. -/
def enterShort (cfg : Config) (st : BotState) (price : Int) (t : Tick)
    (momentum : Int) : BotState × List Event :=
  let positionSize := st.bankroll * cfg.positionSizePct
  let noPrice := 100 - price
  let contracts := pyInt (positionSize / (noPrice : ℚ) * 100)
  if contracts < 1 then (st, [])
  else
    let cost : ℚ := (contracts : ℚ) * (noPrice : ℚ) / 100
    let pos : Position :=
      { side := Side.short
        entryPrice := price
        contracts := contracts
        cost := cost
        entryTick := t.tick
        high := none
        low := some price
        dcaCount := 0
        avgEntryPrice := price
        totalCost := cost
        dcaHistory := [] }
    let bankroll := st.bankroll - cost
    ({ st with position := some pos, bankroll := bankroll },
      if cfg.hasBroadcast then
        [Event.entryOpened Side.short price contracts cost momentum bankroll]
      else [])

/-- `LivePaperBot._check_entry`: price-band and history-length guards, the
game-context gate, then the momentum signal.  Only called when flat. -/
def checkEntry (cfg : Config) (st : BotState) (price : Int) (t : Tick) :
    BotState × List Event :=
  if price < 10 ∨ price > 90 then (st, [])
  else if st.priceHistory.length < 3 then (st, [])
  else
    let gate : Option Int :=
      if cfg.enableGameContext then
        let ctx := calculateGameContextScore cfg st t
        if ctx.timeRemaining < 300 then none
        else if ctx.marketSentiment = "fade" then some (cfg.momentumThreshold + 2)
        else some cfg.momentumThreshold
      else some cfg.momentumThreshold
    match gate with
    | none => (st, [])
    | some required =>
      let momentum := negIdx st.priceHistory 1 - negIdx st.priceHistory 3
      if momentum ≥ required then enterLong cfg st price t momentum
      else if momentum ≤ -required then enterShort cfg st price t momentum
      else (st, [])

/-- Dollar size of the next DCA addition (`_check_dca`):
`starting_bankroll * position_size_pct * dca_size_multiplier ** (dca_count + 1)`. -/
def dcaSize (cfg : Config) (startingBankroll : ℚ) (dcaCount : Nat) : ℚ :=
  startingBankroll * cfg.positionSizePct * cfg.dcaSizeMultiplier ^ (dcaCount + 1)

/-- `LivePaperBot._execute_dca_addition`.  The two division sites
(`dca_size / price` for longs, `dca_size / no_price` for shorts, and the
average-entry division by the new contract total) raise `ZeroDivisionError`
when the divisor is zero; that is the `Except.error` case. -/
def executeDcaAddition (cfg : Config) (st : BotState) (pos : Position)
    (price : Int) (t : Tick) (size : ℚ) : Except Unit (BotState × List Event) :=
  let sized : Except Unit (Int × ℚ) :=
    match pos.side with
    | Side.long =>
      if price = 0 then Except.error ()
      else
        let nc := pyInt (size / (price : ℚ) * 100)
        Except.ok (nc, (nc : ℚ) * (price : ℚ) / 100)
    | Side.short =>
      let noPrice := 100 - price
      if noPrice = 0 then Except.error ()
      else
        let nc := pyInt (size / (noPrice : ℚ) * 100)
        Except.ok (nc, (nc : ℚ) * (noPrice : ℚ) / 100)
  match sized with
  | Except.error e => Except.error e
  | Except.ok (newContracts, addCost) =>
    if newContracts < 1 then Except.ok (st, [])
    else
      let contractsT := pos.contracts + newContracts
      let totalCostT := pos.totalCost + addCost
      if contractsT = 0 then Except.error ()
      else
        let avg : Int :=
          match pos.side with
          | Side.long => pyInt (totalCostT * 100 / (contractsT : ℚ))
          | Side.short => pyInt (100 - totalCostT * 100 / (contractsT : ℚ))
        let pos' :=
          { pos with
            contracts := contractsT
            totalCost := totalCostT
            avgEntryPrice := avg
            dcaCount := pos.dcaCount + 1
            dcaHistory := pos.dcaHistory ++
              [{ price := price, contracts := newContracts, cost := addCost,
                 tick := t.tick }] }
        let bankroll := st.bankroll - addCost
        let st' := { st with position := some pos', bankroll := bankroll }
        Except.ok (st',
          if cfg.hasBroadcast then
            [Event.dcaAdded pos.side price newContracts addCost avg contractsT
              (pos.dcaCount + 1) bankroll
              (calculateTimeRemaining t.quarter t.clock)]
          else [])

/-- `LivePaperBot._check_dca` for the position currently held. -/
def checkDca (cfg : Config) (st : BotState) (pos : Position) (price : Int)
    (t : Tick) : Except Unit (BotState × List Event) :=
  if cfg.enableDca = false then Except.ok (st, [])
  else if (pos.dcaCount : Int) ≥ cfg.dcaMaxAdditions then Except.ok (st, [])
  else
    let ctx := calculateGameContextScore cfg st t
    if ctx.timeRemaining < cfg.dcaMinTimeRemaining then Except.ok (st, [])
    else
      let avgEntry := pos.avgEntryPrice
      let lossFromAvg :=
        match pos.side with
        | Side.long => avgEntry - price
        | Side.short => price - avgEntry
      if lossFromAvg < cfg.dcaTriggerCents then Except.ok (st, [])
      else
        let size := dcaSize cfg st.startingBankroll pos.dcaCount
        if pos.totalCost + size > st.startingBankroll * cfg.dcaMaxTotalRiskPct then
          Except.ok (st, [])
        else if size > st.bankroll then Except.ok (st, [])
        else executeDcaAddition cfg st pos price t size

/-- `LivePaperBot.get_wallet_status`; raises `ZeroDivisionError` when
`starting_bankroll` is zero (the total-return percentage). -/
def getWalletStatus (st : BotState) : Except Unit WalletStatus :=
  let pv : ℚ × ℚ :=
    match st.position, st.priceHistory.getLast? with
    | some pos, some currentPrice =>
      let v : ℚ :=
        match pos.side with
        | Side.long => (pos.contracts : ℚ) * (currentPrice : ℚ) / 100
        | Side.short => (pos.contracts : ℚ) * ((100 : ℚ) - (currentPrice : ℚ)) / 100
      (v, v - pos.cost)
    | _, _ => (0, 0)
  if st.startingBankroll = 0 then Except.error ()
  else
    Except.ok
      { bankroll := st.bankroll
        startingBankroll := st.startingBankroll
        positionValue := pv.1
        unrealizedPnl := pv.2
        realizedPnl := st.totalPnl
        totalPnl := st.totalPnl + pv.2
        totalValue := st.bankroll + pv.1
        totalReturnPct := ((st.bankroll + pv.1) / st.startingBankroll - 1) * 100
        winRate := if st.totalTrades > 0 then
            (st.wins : ℚ) / (st.totalTrades : ℚ) * 100
          else 0 }

/-- Wallet broadcast at the end of each processed tick. -/
def walletEvents (cfg : Config) (st : BotState) : Except Unit (List Event) :=
  if cfg.hasBroadcast then
    match getWalletStatus st with
    | Except.ok w => Except.ok [Event.walletSnapshot w]
    | Except.error e => Except.error e
  else Except.ok []

/-- `LivePaperBot._store_opening_price` (the database write is dropped). -/
def storeOpeningPrice (st : BotState) (t : Tick) : BotState :=
  if st.firstTickReceived then st
  else
    { st with
      openingHomePrice := some t.homePrice
      openingAwayPrice := some t.awayPrice
      firstTickReceived := true }

/-- Decision block of `on_tick` once the tick is accepted and the price
history updated: exit check first, then DCA while still open, else entry
when the bankroll allows it, else the low-balance warning. -/
def tickMain (cfg : Config) (st2 : BotState) (price : Int) (t : Tick) :
    Except Unit (BotState × List Event) :=
  match st2.position with
  | some pos =>
    let r := checkExit cfg st2 pos price t
    match r.1.position with
    | some pos2 =>
      match checkDca cfg r.1 pos2 price t with
      | Except.ok s => Except.ok (s.1, r.2 ++ s.2)
      | Except.error e => Except.error e
    | none => Except.ok r
  | none =>
    if st2.bankroll > 1 then Except.ok (checkEntry cfg st2 price t)
    else
      Except.ok (st2,
        if cfg.hasBroadcast then [Event.lowBalanceWarning st2.bankroll] else [])

/-- Opening-price capture followed by the price-history append/cap: the
state mutations `on_tick` performs before the decision block. -/
def acceptTick (st : BotState) (t : Tick) : BotState :=
  let st1 := storeOpeningPrice st t
  { st1 with priceHistory := pushPrice st1.priceHistory t.homePrice }

/-- `LivePaperBot.on_tick`: the per-tick pipeline.  A tick with
`home_price == 0` (the dict default when the key is absent) is ignored
entirely; otherwise the opening price is captured once, the price history
updated, the decision block run, and the wallet snapshot broadcast. -/
def onTick (cfg : Config) (st : BotState) (t : Tick) :
    Except Unit (BotState × List Event) :=
  if st.isActive = false then Except.ok (st, [])
  else if t.homePrice = 0 then Except.ok (st, [])
  else
    match tickMain cfg (acceptTick st t) t.homePrice t with
    | Except.ok s =>
      match walletEvents cfg s.1 with
      | Except.ok ew => Except.ok (s.1, s.2 ++ ew)
      | Except.error e => Except.error e
    | Except.error e => Except.error e

/-- Fold `on_tick` over a tick sequence, accumulating emitted events. -/
def runTicks (cfg : Config) (st : BotState) : List Tick →
    Except Unit (BotState × List Event)
  | [] => Except.ok (st, [])
  | t :: ts =>
    match onTick cfg st t with
    | Except.ok s =>
      match runTicks cfg s.1 ts with
      | Except.ok s2 => Except.ok (s2.1, s.2 ++ s2.2)
      | Except.error e => Except.error e
    | Except.error e => Except.error e

/-- Result of `LivePaperBot.stop`: final engine state, external user balance
and the emitted events. -/
structure StopResult where
  state : BotState
  userBalance : ℚ
  events : List Event
deriving DecidableEq

/-- `LivePaperBot.stop`: deactivate, force-close any open position at the
last observed price, then return the remaining bankroll to the external user
wallet.  The source never zeroes `self.bankroll` after crediting it. -/
def stopBot (cfg : Config) (st : BotState) (userBalance : ℚ)
    (reason : String) : StopResult :=
  let st0 := { st with isActive := false }
  let closed : BotState × List Event :=
    match st0.position, st0.priceHistory.getLast? with
    | some pos, some currentPrice => executeExit cfg st0 pos currentPrice reason
    | _, _ => (st0, [])
  if cfg.hasUserId ∧ closed.1.bankroll > 0 then
    { state := closed.1
      userBalance := userBalance + closed.1.bankroll
      events := closed.2 }
  else
    { state := closed.1, userBalance := userBalance, events := closed.2 }

/-- State component of an `ok` run result (the default is never used by the
theorems below, which also assert the run succeeded). -/
def okState (r : Except Unit (BotState × List Event)) : BotState :=
  ((r.toOption).map Prod.fst).getD (initState 0)

/-- Event component of an `ok` run result. -/
def okEvents (r : Except Unit (BotState × List Event)) : List Event :=
  ((r.toOption).map Prod.snd).getD []

/-- Whether a run result is a success. -/
def isOkRun (r : Except Unit (BotState × List Event)) : Bool :=
  r.toOption.isSome

/-- Dollars committed to the open position, zero when flat. -/
def openCost (st : BotState) : ℚ :=
  match st.position with
  | some p => p.totalCost
  | none => 0

/-- A tick at home price `p` with sequence number `n`, first quarter, a full
clock, and neutral game context. -/
def mkTick (n : Int) (p : Int) : Tick :=
  { tick := n
    homePrice := p
    awayPrice := 100 - p
    quarter := 1
    clock := "15:00"
    scoreDiff := 0
    possessionTeamId := ""
    homeTeam := "" }

/-- Baseline configuration: the constructor defaults with game context, time
scaling and DCA all disabled and no broadcast function attached. -/
def cfgBase : Config :=
  { momentumThreshold := 8
    initialStop := 8
    profitTarget := 15
    breakevenTrigger := 5
    positionSizePct := 1 / 2
    enableTimeScaling := false
    earlyGameStopMultiplier := 3 / 2
    lateGameStopMultiplier := 7 / 10
    earlyGameTargetMultiplier := 13 / 10
    lateGameTargetMultiplier := 4 / 5
    enableGameContext := false
    possessionBiasCents := 2
    scoreVolatilityMultiplier := 6 / 5
    favoriteFadeThreshold := 65
    underdogSupportThreshold := 35
    enableDca := false
    dcaMaxAdditions := 2
    dcaTriggerCents := 5
    dcaSizeMultiplier := 3 / 4
    dcaMinTimeRemaining := 600
    dcaMaxTotalRiskPct := 3 / 4
    hasBroadcast := false
    hasUserId := false }

/-- Baseline configuration with a broadcast function attached. -/
def cfgCast : Config := { cfgBase with hasBroadcast := true }

/-- State after one tick at 40 from a fresh 1000-dollar engine. -/
def stH40 : BotState :=
  { bankroll := 1000
    startingBankroll := 1000
    position := none
    priceHistory := [40]
    openingHomePrice := some 40
    openingAwayPrice := some 60
    firstTickReceived := true
    isActive := true
    totalTrades := 0
    wins := 0
    losses := 0
    totalPnl := 0 }

/-- State after ticks 40, 45. -/
def stH4045 : BotState := { stH40 with priceHistory := [40, 45] }

/-- The long position opened on the tick at 50 (momentum 10 over the
window `[40, 45, 50]`, size 500 dollars, 1000 contracts at 50 cents). -/
def posEnter50 : Position :=
  { side := Side.long
    entryPrice := 50
    contracts := 1000
    cost := 500
    entryTick := 3
    high := some 50
    low := none
    dcaCount := 0
    avgEntryPrice := 50
    totalCost := 500
    dcaHistory := [] }

/-- State after the entry tick at 50. -/
def stEnter50 : BotState :=
  { stH40 with
    bankroll := 500
    position := some posEnter50
    priceHistory := [40, 45, 50] }

/-- State after the tick at 54 (watermark moved to 54, no exit). -/
def stHigh54 : BotState :=
  { stEnter50 with
    position := some { posEnter50 with high := some 54 }
    priceHistory := [40, 45, 50, 54] }

/-- State after the tick at 47 (stop price is 42, so still no exit). -/
def stAt47 : BotState :=
  { stHigh54 with priceHistory := [40, 45, 50, 54, 47] }

/-- State after the tick at 42: stop exit, proceeds 420, realized pnl -80. -/
def stC2Closed : BotState :=
  { stAt47 with
    bankroll := 920
    position := none
    priceHistory := [40, 45, 50, 54, 47, 42]
    totalTrades := 1
    losses := 1
    totalPnl := -80 }

/-- State after the tick at 65: profit exit, proceeds 650, realized pnl 150. -/
def stC1Final : BotState :=
  { stEnter50 with
    bankroll := 1150
    position := none
    priceHistory := [40, 45, 50, 65]
    totalTrades := 1
    wins := 1
    totalPnl := 150 }

/-- Wallet snapshot while flat with the full bankroll. -/
def wFlat1000 : WalletStatus :=
  { bankroll := 1000
    startingBankroll := 1000
    positionValue := 0
    unrealizedPnl := 0
    realizedPnl := 0
    totalPnl := 0
    totalValue := 1000
    totalReturnPct := 0
    winRate := 0 }

/-- Wallet snapshot right after the entry at 50. -/
def wEnter : WalletStatus :=
  { wFlat1000 with bankroll := 500, positionValue := 500 }

/-- Wallet snapshot after the tick at 54. -/
def w54 : WalletStatus :=
  { wFlat1000 with
    bankroll := 500
    positionValue := 540
    unrealizedPnl := 40
    totalPnl := 40
    totalValue := 1040
    totalReturnPct := 4 }

/-- Wallet snapshot after the tick at 47. -/
def w47 : WalletStatus :=
  { wFlat1000 with
    bankroll := 500
    positionValue := 470
    unrealizedPnl := -30
    totalPnl := -30
    totalValue := 970
    totalReturnPct := -3 }

/-- Wallet snapshot after the stop exit at 42. -/
def wClosed : WalletStatus :=
  { wFlat1000 with
    bankroll := 920
    realizedPnl := -80
    totalPnl := -80
    totalValue := 920
    totalReturnPct := -8 }

/-- Oversized configuration: the position fraction is 2, i.e. the engine is
asked to commit twice its bankroll per entry. -/
def cfgDouble : Config := { cfgBase with positionSizePct := 2 }

/-- As `stH40` but for a 100-dollar engine. -/
def stC4H40 : BotState := { stH40 with bankroll := 100, startingBankroll := 100 }

/-- As `stH4045` but for a 100-dollar engine. -/
def stC4H4045 : BotState := { stC4H40 with priceHistory := [40, 45] }

/-- Position created at 50 by the oversized entry: 400 contracts, 200
dollars of cost against a 100-dollar bankroll. -/
def posOversized : Position :=
  { posEnter50 with contracts := 400, cost := 200, totalCost := 200 }

/-- State after the oversized entry: the bankroll is negative. -/
def stC4Final : BotState :=
  { stC4H40 with
    bankroll := -100
    position := some posOversized
    priceHistory := [40, 45, 50] }

/-- Tiny-bankroll engine (1.50 dollars) after one tick at 70. -/
def stC5a : BotState :=
  { stH40 with
    bankroll := 3 / 2
    startingBankroll := 3 / 2
    priceHistory := [70]
    openingHomePrice := some 70
    openingAwayPrice := some 30 }

/-- Tiny-bankroll engine after ticks 70, 80. -/
def stC5b : BotState := { stC5a with priceHistory := [70, 80] }

/-- Tiny-bankroll engine after ticks 70, 80, 90: momentum is 20 but the
sized entry rounds to 0 contracts, so no position is opened. -/
def stC5c : BotState := { stC5a with priceHistory := [70, 80, 90] }

end PaperTrader

namespace PaperTrader

/-- Full-clock first-quarter ticks parse to 3600 seconds remaining. -/
lemma timeRemaining_q1_full : calculateTimeRemaining 1 "15:00" = 3600 := by
  decide

/-- Per-tick evaluation: fresh engine, tick at 40 (history warm-up). -/
lemma c2_step1 : onTick cfgCast (initState 1000) (mkTick 1 40) =
    Except.ok (stH40, [Event.walletSnapshot wFlat1000]) := by
  norm_num [onTick, tickMain, acceptTick, storeOpeningPrice, pushPrice, checkEntry, enterLong, enterShort, checkExit,
    executeExit, checkDca, executeDcaAddition, dcaSize, walletEvents,
    getWalletStatus, calculateGameContextScore, calculateDynamicStop,
    calculateDynamicTarget, pyInt, negIdx, mkTick, cfgBase, cfgCast, initState,
    stH40, wFlat1000]

/-- Per-tick evaluation: tick at 45 (history warm-up). -/
lemma c2_step2 : onTick cfgCast stH40 (mkTick 2 45) =
    Except.ok (stH4045, [Event.walletSnapshot wFlat1000]) := by
  norm_num [onTick, tickMain, acceptTick, storeOpeningPrice, pushPrice, checkEntry, enterLong, enterShort, checkExit,
    executeExit, checkDca, executeDcaAddition, dcaSize, walletEvents,
    getWalletStatus, calculateGameContextScore, calculateDynamicStop,
    calculateDynamicTarget, pyInt, negIdx, mkTick, cfgBase, cfgCast, initState,
    stH40, stH4045, wFlat1000]

/-- Per-tick evaluation: tick at 50 fires the long entry (momentum 10). -/
lemma c2_step3 : onTick cfgCast stH4045 (mkTick 3 50) =
    Except.ok (stEnter50,
      [Event.entryOpened Side.long 50 1000 500 10 500,
       Event.walletSnapshot wEnter]) := by
  norm_num [onTick, tickMain, acceptTick, storeOpeningPrice, pushPrice, checkEntry, enterLong, enterShort, checkExit,
    executeExit, checkDca, executeDcaAddition, dcaSize, walletEvents,
    getWalletStatus, calculateGameContextScore, calculateDynamicStop,
    calculateDynamicTarget, pyInt, negIdx, mkTick, cfgBase, cfgCast, initState,
    stH40, stH4045, stEnter50, posEnter50, wFlat1000, wEnter]

/-- Per-tick evaluation: tick at 54 only moves the watermark (gain 4 is
below both the breakeven trigger 5 and the target 15). -/
lemma c2_step4 : onTick cfgCast stEnter50 (mkTick 4 54) =
    Except.ok (stHigh54, [Event.walletSnapshot w54]) := by
  norm_num [onTick, tickMain, acceptTick, storeOpeningPrice, pushPrice, checkEntry, enterLong, enterShort, checkExit,
    executeExit, checkDca, executeDcaAddition, dcaSize, walletEvents,
    getWalletStatus, calculateGameContextScore, calculateDynamicStop,
    calculateDynamicTarget, pyInt, negIdx, mkTick, cfgBase, cfgCast, initState,
    stH40, stEnter50, stHigh54, posEnter50, wFlat1000, w54]

/-- Per-tick evaluation: tick at 47 does NOT exit (the stop price is
50 - 8 = 42 because the gain -3 is below the breakeven trigger). -/
lemma c2_step5 : onTick cfgCast stHigh54 (mkTick 5 47) =
    Except.ok (stAt47, [Event.walletSnapshot w47]) := by
  norm_num [onTick, tickMain, acceptTick, storeOpeningPrice, pushPrice, checkEntry, enterLong, enterShort, checkExit,
    executeExit, checkDca, executeDcaAddition, dcaSize, walletEvents,
    getWalletStatus, calculateGameContextScore, calculateDynamicStop,
    calculateDynamicTarget, pyInt, negIdx, mkTick, cfgBase, cfgCast, initState,
    stH40, stEnter50, stHigh54, stAt47, posEnter50, wFlat1000, w47]

/-- Per-tick evaluation: tick at 42 hits the stop price and exits with
reason STOP at a loss of 80. -/
lemma c2_step6 : onTick cfgCast stAt47 (mkTick 6 42) =
    Except.ok (stC2Closed,
      [Event.positionClosed Side.long 50 42 1000 (-80) "STOP" 920,
       Event.walletSnapshot wClosed]) := by
  norm_num [onTick, tickMain, acceptTick, storeOpeningPrice, pushPrice, checkEntry, enterLong, enterShort, checkExit,
    executeExit, checkDca, executeDcaAddition, dcaSize, walletEvents,
    getWalletStatus, calculateGameContextScore, calculateDynamicStop,
    calculateDynamicTarget, pyInt, negIdx, mkTick, cfgBase, cfgCast, initState,
    stH40, stEnter50, stHigh54, stAt47, stC2Closed, posEnter50, wFlat1000,
    wClosed]

/-- Per-tick evaluation without a broadcast function: tick at 40. -/
lemma c1_step1 : onTick cfgBase (initState 1000) (mkTick 1 40) =
    Except.ok (stH40, []) := by
  norm_num [onTick, tickMain, acceptTick, storeOpeningPrice, pushPrice, checkEntry, enterLong, enterShort, checkExit,
    executeExit, checkDca, executeDcaAddition, dcaSize, walletEvents,
    getWalletStatus, calculateGameContextScore, calculateDynamicStop,
    calculateDynamicTarget, pyInt, negIdx, mkTick, cfgBase, initState, stH40]

/-- Per-tick evaluation without a broadcast function: tick at 45. -/
lemma c1_step2 : onTick cfgBase stH40 (mkTick 2 45) =
    Except.ok (stH4045, []) := by
  norm_num [onTick, tickMain, acceptTick, storeOpeningPrice, pushPrice, checkEntry, enterLong, enterShort, checkExit,
    executeExit, checkDca, executeDcaAddition, dcaSize, walletEvents,
    getWalletStatus, calculateGameContextScore, calculateDynamicStop,
    calculateDynamicTarget, pyInt, negIdx, mkTick, cfgBase, initState, stH40,
    stH4045]

/-- Per-tick evaluation without a broadcast function: entry at 50. -/
lemma c1_step3 : onTick cfgBase stH4045 (mkTick 3 50) =
    Except.ok (stEnter50, []) := by
  norm_num [onTick, tickMain, acceptTick, storeOpeningPrice, pushPrice, checkEntry, enterLong, enterShort, checkExit,
    executeExit, checkDca, executeDcaAddition, dcaSize, walletEvents,
    getWalletStatus, calculateGameContextScore, calculateDynamicStop,
    calculateDynamicTarget, pyInt, negIdx, mkTick, cfgBase, initState, stH40,
    stH4045, stEnter50, posEnter50]

/-- Per-tick evaluation: tick at 65 reaches the profit target (gain 15)
and exits with proceeds 650, realized pnl 150. -/
lemma c1_step4 : onTick cfgBase stEnter50 (mkTick 4 65) =
    Except.ok (stC1Final, []) := by
  norm_num [onTick, tickMain, acceptTick, storeOpeningPrice, pushPrice, checkEntry, enterLong, enterShort, checkExit,
    executeExit, checkDca, executeDcaAddition, dcaSize, walletEvents,
    getWalletStatus, calculateGameContextScore, calculateDynamicStop,
    calculateDynamicTarget, pyInt, negIdx, mkTick, cfgBase, initState, stH40,
    stEnter50, stC1Final, posEnter50]

/-- The whole broadcast-free profitable round trip, assembled. -/
lemma c1_run : runTicks cfgBase (initState 1000)
    [mkTick 1 40, mkTick 2 45, mkTick 3 50, mkTick 4 65] =
    Except.ok (stC1Final, []) := by
  simp [runTicks, c1_step1, c1_step2, c1_step3, c1_step4]

/-- Per-tick evaluation for the oversized configuration: tick at 40. -/
lemma c4_step1 : onTick cfgDouble (initState 100) (mkTick 1 40) =
    Except.ok (stC4H40, []) := by
  norm_num [onTick, tickMain, acceptTick, storeOpeningPrice, pushPrice, checkEntry, enterLong, enterShort, checkExit,
    executeExit, checkDca, executeDcaAddition, dcaSize, walletEvents,
    getWalletStatus, calculateGameContextScore, calculateDynamicStop,
    calculateDynamicTarget, pyInt, negIdx, mkTick, cfgBase, cfgDouble,
    initState, stH40, stC4H40]

/-- Per-tick evaluation for the oversized configuration: tick at 45. -/
lemma c4_step2 : onTick cfgDouble stC4H40 (mkTick 2 45) =
    Except.ok (stC4H4045, []) := by
  norm_num [onTick, tickMain, acceptTick, storeOpeningPrice, pushPrice, checkEntry, enterLong, enterShort, checkExit,
    executeExit, checkDca, executeDcaAddition, dcaSize, walletEvents,
    getWalletStatus, calculateGameContextScore, calculateDynamicStop,
    calculateDynamicTarget, pyInt, negIdx, mkTick, cfgBase, cfgDouble,
    initState, stH40, stC4H40, stC4H4045]

/-- Per-tick evaluation for the oversized configuration: the entry at 50
costs 200 dollars against a 100-dollar bankroll, leaving -100. -/
lemma c4_step3 : onTick cfgDouble stC4H4045 (mkTick 3 50) =
    Except.ok (stC4Final, []) := by
  norm_num [onTick, tickMain, acceptTick, storeOpeningPrice, pushPrice, checkEntry, enterLong, enterShort, checkExit,
    executeExit, checkDca, executeDcaAddition, dcaSize, walletEvents,
    getWalletStatus, calculateGameContextScore, calculateDynamicStop,
    calculateDynamicTarget, pyInt, negIdx, mkTick, cfgBase, cfgDouble,
    initState, stH40, stC4H40, stC4H4045, stC4Final, posEnter50, posOversized]

/-- Per-tick evaluation for the tiny-bankroll engine: tick at 70. -/
lemma c5_step1 : onTick cfgBase (initState (3 / 2)) (mkTick 1 70) =
    Except.ok (stC5a, []) := by
  norm_num [onTick, tickMain, acceptTick, storeOpeningPrice, pushPrice, checkEntry, enterLong, enterShort, checkExit,
    executeExit, checkDca, executeDcaAddition, dcaSize, walletEvents,
    getWalletStatus, calculateGameContextScore, calculateDynamicStop,
    calculateDynamicTarget, pyInt, negIdx, mkTick, cfgBase, initState, stH40,
    stC5a]

/-- Per-tick evaluation for the tiny-bankroll engine: tick at 80. -/
lemma c5_step2 : onTick cfgBase stC5a (mkTick 2 80) =
    Except.ok (stC5b, []) := by
  norm_num [onTick, tickMain, acceptTick, storeOpeningPrice, pushPrice, checkEntry, enterLong, enterShort, checkExit,
    executeExit, checkDca, executeDcaAddition, dcaSize, walletEvents,
    getWalletStatus, calculateGameContextScore, calculateDynamicStop,
    calculateDynamicTarget, pyInt, negIdx, mkTick, cfgBase, initState, stH40,
    stC5a, stC5b]

/-- Per-tick evaluation for the tiny-bankroll engine: at 90 the momentum is
20 (well above the threshold 8) but the sized entry rounds to 0 contracts,
so the tick leaves the engine flat. -/
lemma c5_step3 : onTick cfgBase stC5b (mkTick 3 90) =
    Except.ok (stC5c, []) := by
  norm_num [onTick, tickMain, acceptTick, storeOpeningPrice, pushPrice, checkEntry, enterLong, enterShort, checkExit,
    executeExit, checkDca, executeDcaAddition, dcaSize, walletEvents,
    getWalletStatus, calculateGameContextScore, calculateDynamicStop,
    calculateDynamicTarget, pyInt, negIdx, mkTick, cfgBase, initState, stH40,
    stC5a, stC5b, stC5c]

end PaperTrader

namespace PaperTrader

/-- C6 counterexample: the clock model maps quarter 1 with a full 15:00
clock to 3600 seconds remaining ((4-1)*900 + 900, clamped), not the 2700
the claim asserts. -/
theorem time_remaining_counterexample :
    calculateTimeRemaining 1 "15:00" = 3600 ∧
    ¬ calculateTimeRemaining 1 "15:00" = 2700 := by
  constructor <;> decide

/-- C6 (amended): the clock model is total; period 0 gives 3600, period at
least 5 gives 0, every other period yields `(4 - period) * 900` plus the
parsed clock seconds clamped to [0, 3600]; the result always lies in
[0, 3600]; `timeRemaining(4, "00:00") = 0` and `timeRemaining(1, "15:00")`
is 3600 (not 2700). -/
theorem time_remaining_contract :
    (∀ (period : Int) (clock : String),
      (period = 0 → calculateTimeRemaining period clock = 3600) ∧
      (period ≠ 0 → period ≥ 5 → calculateTimeRemaining period clock = 0) ∧
      (period ≠ 0 → period < 5 →
        calculateTimeRemaining period clock =
          max 0 (min 3600 ((4 - period) * 900 + parseClockSeconds clock))) ∧
      0 ≤ calculateTimeRemaining period clock ∧
      calculateTimeRemaining period clock ≤ 3600) ∧
    calculateTimeRemaining 4 "00:00" = 0 ∧
    calculateTimeRemaining 1 "15:00" = 3600 := by
  refine ⟨fun period clock => ⟨?_, ?_, ?_, ?_, ?_⟩, by decide, by decide⟩
  · intro h
    simp [calculateTimeRemaining, h]
  · intro h1 h2
    simp [calculateTimeRemaining, h1, h2]
  · intro h1 h2
    have h3 : ¬ period ≥ 5 := by omega
    simp [calculateTimeRemaining, h1, h3]
  · unfold calculateTimeRemaining
    split
    · omega
    · split
      · omega
      · exact le_max_left 0 _
  · unfold calculateTimeRemaining
    split
    · omega
    · split
      · omega
      · exact max_le (by omega) (min_le_left 3600 _)

/-- C6 witness: the contract instantiated at period 7 with an arbitrary
string gives 0 (the final-period clause). -/
theorem time_remaining_witness : calculateTimeRemaining 7 "anything" = 0 :=
  (time_remaining_contract.1 7 "anything").2.1 (by decide) (by decide)

/-- Interpolation multiplier exactly as the claim words it. -/
def specMultiplier (earlyMult lateMult timeFrac : ℚ) : ℚ :=
  if timeFrac ≥ 1 / 2 then earlyMult
  else 1 + ((1 / 2 - timeFrac) / (1 / 2)) * (lateMult - 1)

/-- Dynamic stop as described by the claim (early multiplier for ratio at
least one half, linear interpolation below, truncate toward zero, clamp). -/
def specDynamicStop (cfg : Config) (baseStop : Int) (t : Tick) : Int :=
  if cfg.enableTimeScaling then
    max 3 (min 20 (pyInt ((baseStop : ℚ) *
      specMultiplier cfg.earlyGameStopMultiplier cfg.lateGameStopMultiplier
        ((calculateTimeRemaining t.quarter t.clock : ℚ) / 3600))))
  else baseStop

/-- Dynamic target as described by the claim. -/
def specDynamicTarget (cfg : Config) (baseTarget : Int) (t : Tick) : Int :=
  if cfg.enableTimeScaling then
    max 5 (min 30 (pyInt ((baseTarget : ℚ) *
      specMultiplier cfg.earlyGameTargetMultiplier cfg.lateGameTargetMultiplier
        ((calculateTimeRemaining t.quarter t.clock : ℚ) / 3600))))
  else baseTarget

/-- C7: for every configuration, base value and tick (any quarter or clock
string), the dynamic stop lies in [3, 20] and the dynamic target in [5, 30]
whenever time scaling is enabled; both functions compute exactly the
claimed interpolate-truncate-clamp formula; with scaling disabled they
return the base values unchanged. -/
theorem dynamic_bounds : ∀ (cfg : Config) (base baseT : Int) (t : Tick),
    (cfg.enableTimeScaling = true →
      3 ≤ calculateDynamicStop cfg base t ∧ calculateDynamicStop cfg base t ≤ 20 ∧
      5 ≤ calculateDynamicTarget cfg baseT t ∧
      calculateDynamicTarget cfg baseT t ≤ 30) ∧
    calculateDynamicStop cfg base t = specDynamicStop cfg base t ∧
    calculateDynamicTarget cfg baseT t = specDynamicTarget cfg baseT t ∧
    (cfg.enableTimeScaling = false →
      calculateDynamicStop cfg base t = base ∧
      calculateDynamicTarget cfg baseT t = baseT) := by
  intro cfg base baseT t
  refine ⟨fun h => ?_, ?_, ?_, fun h => ?_⟩
  · simp only [calculateDynamicStop, calculateDynamicTarget, h]
    refine ⟨le_max_left 3 _, max_le (by omega) (min_le_left 20 _),
      le_max_left 5 _, max_le (by omega) (min_le_left 30 _)⟩
  · cases h : cfg.enableTimeScaling <;>
      simp [calculateDynamicStop, specDynamicStop, specMultiplier, h]
  · cases h : cfg.enableTimeScaling <;>
      simp [calculateDynamicTarget, specDynamicTarget, specMultiplier, h]
  · simp [calculateDynamicStop, calculateDynamicTarget, h]

/-- Scaled configuration for the C7 witness. -/
def cfgScaled : Config := { cfgBase with enableTimeScaling := true }

/-- A tick with a malformed clock string. -/
def tickJunk : Tick := { mkTick 9 50 with quarter := 3, clock := "garbage" }

/-- C7 witness: bounds hold at a concrete scaled configuration on a tick
with a malformed clock. -/
theorem dynamic_bounds_witness :
    3 ≤ calculateDynamicStop cfgScaled 8 tickJunk ∧
    calculateDynamicStop cfgScaled 8 tickJunk ≤ 20 ∧
    5 ≤ calculateDynamicTarget cfgScaled 15 tickJunk ∧
    calculateDynamicTarget cfgScaled 15 tickJunk ≤ 30 :=
  (dynamic_bounds cfgScaled 8 15 tickJunk).1 rfl

/-- C8: every DCA addition is sized at
`startingBankroll * position_size_pct * dca_size_multiplier ^ (dcaCount + 1)`
dollars, where `dcaCount` counts the prior additions; with starting bankroll
1000, fraction one half and multiplier three quarters the first addition is
375 dollars and the second 281.25 (= 1125/4). -/
theorem dca_sizing :
    (∀ (cfg : Config) (b : ℚ) (n : Nat),
      dcaSize cfg b n = b * cfg.positionSizePct * cfg.dcaSizeMultiplier ^ (n + 1)) ∧
    cfgBase.positionSizePct = 1 / 2 ∧
    cfgBase.dcaSizeMultiplier = 3 / 4 ∧
    dcaSize cfgBase 1000 0 = 375 ∧
    dcaSize cfgBase 1000 1 = 1125 / 4 := by
  refine ⟨fun cfg b n => rfl, rfl, rfl, ?_, ?_⟩ <;>
    norm_num [dcaSize, cfgBase]

/-- C9: a tick whose home price is exactly 0 (the dict-lookup default when
the field is absent) leaves the whole engine state unchanged and emits no
event of any kind. -/
theorem zero_price_noop : ∀ (cfg : Config) (st : BotState) (t : Tick),
    t.homePrice = 0 → onTick cfg st t = Except.ok (st, []) := by
  intro cfg st t h
  unfold onTick
  simp [h]

/-- C9 witness: a concrete zero-price tick on a fresh engine. -/
theorem zero_price_noop_witness :
    onTick cfgBase (initState 5) (mkTick 1 0) = Except.ok (initState 5, []) :=
  zero_price_noop cfgBase (initState 5) (mkTick 1 0) rfl

/-- Events of the broadcast run through the tick at 47. -/
def c2EventsTo47 : List Event :=
  [Event.walletSnapshot wFlat1000,
   Event.walletSnapshot wFlat1000,
   Event.entryOpened Side.long 50 1000 500 10 500,
   Event.walletSnapshot wEnter,
   Event.walletSnapshot w54,
   Event.walletSnapshot w47]

/-- Events of the broadcast run through the stop exit at 42. -/
def c2EventsTo42 : List Event :=
  c2EventsTo47 ++
    [Event.positionClosed Side.long 50 42 1000 (-80) "STOP" 920,
     Event.walletSnapshot wClosed]

/-- C2 counterexample: a long entered at 50 with stop 8 and breakeven
trigger 5 (no time scaling) does NOT exit on the tick at 47: the stop price
is 50 - 8 = 42 and 47 > 42, so the position stays open and no
`positionClosed` event of any reason is emitted. -/
theorem stop_exit_counterexample :
    runTicks cfgCast (initState 1000)
      [mkTick 1 40, mkTick 2 45, mkTick 3 50, mkTick 4 54, mkTick 5 47] =
      Except.ok (stAt47, c2EventsTo47) ∧
    stAt47.position = some { posEnter50 with high := some 54 } ∧
    c2EventsTo47.countP isClosedEvent = 0 := by
  refine ⟨?_, rfl, by simp [c2EventsTo47, isClosedEvent]⟩
  simp [runTicks, c2_step1, c2_step2, c2_step3, c2_step4, c2_step5,
    c2EventsTo47]

/-- C2 (amended): in that scenario the ticks 54 and 47 leave the position
open (the breakeven stop never latches because the gain 4 at 54 is below
the trigger 5); the stop exit fires once price reaches 42, closing with
reason STOP at a loss (pnl -80), and that is the only close event. -/
theorem stop_exit_corrected :
    runTicks cfgCast (initState 1000)
      [mkTick 1 40, mkTick 2 45, mkTick 3 50, mkTick 4 54, mkTick 5 47,
       mkTick 6 42] =
      Except.ok (stC2Closed, c2EventsTo42) ∧
    c2EventsTo42.filter isClosedEvent =
      [Event.positionClosed Side.long 50 42 1000 (-80) "STOP" 920] ∧
    stC2Closed.position = none ∧
    stC2Closed.totalPnl < 0 := by
  refine ⟨?_, by simp [c2EventsTo42, c2EventsTo47, isClosedEvent], rfl,
    by norm_num [stC2Closed, stAt47, stHigh54, stEnter50, stH40]⟩
  simp [runTicks, c2_step1, c2_step2, c2_step3, c2_step4, c2_step5, c2_step6,
    c2EventsTo42, c2EventsTo47]

/-- C1 counterexample: with DCA disabled, a single profitable round trip
(entry at 50 for 500 dollars, profit exit at 65 for 650) yields bankroll
1150 and realized pnl 150, and the claimed identity
`starting = bankroll + openCost + totalPnl` fails: 1000 is not 1300. -/
theorem wallet_conservation_counterexample :
    runTicks cfgBase (initState 1000)
      [mkTick 1 40, mkTick 2 45, mkTick 3 50, mkTick 4 65] =
      Except.ok (stC1Final, []) ∧
    ¬ (stC1Final.startingBankroll =
        stC1Final.bankroll + openCost stC1Final + stC1Final.totalPnl) := by
  constructor
  · exact c1_run
  · norm_num [openCost, stC1Final, stEnter50, stH40]

/-- C4 counterexample: with `position_size_pct = 2` the entry at 50 sizes
400 contracts costing 200 dollars against a 100-dollar bankroll and the
engine executes it anyway — there is no affordability check on entries —
leaving the bankroll at -100. -/
theorem bankroll_nonneg_counterexample :
    (initState 100).bankroll = 100 ∧
    runTicks cfgDouble (initState 100)
      [mkTick 1 40, mkTick 2 45, mkTick 3 50] = Except.ok (stC4Final, []) ∧
    stC4Final.bankroll < 0 := by
  refine ⟨rfl, ?_, by norm_num [stC4Final, stC4H40, stH40]⟩
  simp [runTicks, c4_step1, c4_step2, c4_step3]

/-- C5 counterexample: a flat engine with bankroll 1.50 (> 1), price
history [70, 80, 90] and momentum 20 (at least the threshold 8) does not
open a long at 90: the sized entry `floor(0.75 / 90 * 100)` rounds to 0
contracts and the signal is dropped, so "long fires iff momentum meets the
threshold" is false. -/
theorem entry_signal_counterexample :
    runTicks cfgBase (initState (3 / 2))
      [mkTick 1 70, mkTick 2 80, mkTick 3 90] = Except.ok (stC5c, []) ∧
    negIdx stC5c.priceHistory 1 - negIdx stC5c.priceHistory 3 ≥
      cfgBase.momentumThreshold ∧
    stC5c.bankroll > 1 ∧
    (10 : Int) ≤ 90 ∧
    stC5c.position = none := by
  refine ⟨?_, by decide, by norm_num [stC5c, stC5a, stH40], by decide, rfl⟩
  simp [runTicks, c5_step1, c5_step2, c5_step3]

/-- Configuration bound to a user wallet with broadcasts attached. -/
def cfgStop : Config := { cfgBase with hasBroadcast := true, hasUserId := true }

/-- An open long at 55 (100 contracts, 55 dollars) for the stop scenario. -/
def posStop : Position :=
  { side := Side.long
    entryPrice := 55
    contracts := 100
    cost := 55
    entryTick := 1
    high := some 61
    low := none
    dcaCount := 0
    avgEntryPrice := 55
    totalCost := 55
    dcaHistory := [] }

/-- Session state with that open long and last observed price 61. -/
def stOpen61 : BotState :=
  { bankroll := 100
    startingBankroll := 1000
    position := some posStop
    priceHistory := [55, 61]
    openingHomePrice := some 55
    openingAwayPrice := some 45
    firstTickReceived := true
    isActive := true
    totalTrades := 0
    wins := 0
    losses := 0
    totalPnl := 0 }

/-- C3: the first `stop()` on a session with an open long at last price 61
emits exactly one `positionClosed` event with the caller's reason and
credits the remaining bankroll (161) to the external wallet once
(2000 to 2161); but a second `stop()` — which emits no further close
event — credits the same 161 again (2161 to 2322), because the source
never zeroes `self.bankroll` after returning it.  This exhibits the
double-credit the specification forbids. -/
theorem stop_double_credit_bug :
    (stopBot cfgStop stOpen61 2000 "BOT_STOPPED").events.filter isClosedEvent =
      [Event.positionClosed Side.long 55 61 100 6 "BOT_STOPPED" 161] ∧
    (stopBot cfgStop stOpen61 2000 "BOT_STOPPED").userBalance = 2161 ∧
    (stopBot cfgStop (stopBot cfgStop stOpen61 2000 "BOT_STOPPED").state
        (stopBot cfgStop stOpen61 2000 "BOT_STOPPED").userBalance
        "BOT_STOPPED").events.countP isClosedEvent = 0 ∧
    (stopBot cfgStop (stopBot cfgStop stOpen61 2000 "BOT_STOPPED").state
        (stopBot cfgStop stOpen61 2000 "BOT_STOPPED").userBalance
        "BOT_STOPPED").userBalance = 2322 := by
  norm_num [stopBot, executeExit, cfgStop, cfgBase, stOpen61, posStop,
    isClosedEvent, List.filter, List.countP, List.countP.go]

/-- DCA-enabled configuration for the C10 crash scenario. -/
def cfgDca : Config :=
  { cfgBase with
    enableDca := true
    initialStop := 15
    dcaMaxTotalRiskPct := 1
    positionSizePct := 1 / 10 }

/-- An open short entered at 90 (100 contracts of the no side at 10 cents). -/
def posShort90 : Position :=
  { side := Side.short
    entryPrice := 90
    contracts := 100
    cost := 10
    entryTick := 1
    high := none
    low := some 90
    dcaCount := 0
    avgEntryPrice := 90
    totalCost := 10
    dcaHistory := [] }

/-- Session state holding that short. -/
def stShort90 : BotState :=
  { bankroll := 500
    startingBankroll := 1000
    position := some posShort90
    priceHistory := [90]
    openingHomePrice := some 90
    openingAwayPrice := some 10
    firstTickReceived := true
    isActive := true
    totalTrades := 0
    wins := 0
    losses := 0
    totalPnl := 0 }

/-- C10 counterexample: on a tick at home price 100 (inside [0, 100]) with
an open short and DCA enabled, the exit does not fire (stop price 105), the
DCA trigger passes, and `_execute_dca_addition` divides by
`no_price = 100 - 100 = 0`: `on_tick` raises `ZeroDivisionError`. -/
theorem on_tick_total_counterexample :
    (mkTick 5 100).homePrice = 100 ∧
    onTick cfgDca stShort90 (mkTick 5 100) = Except.error () := by
  refine ⟨rfl, ?_⟩
  norm_num [onTick, tickMain, acceptTick, storeOpeningPrice, pushPrice, checkEntry, enterLong, enterShort, checkExit,
    executeExit, checkDca, executeDcaAddition, dcaSize, walletEvents,
    getWalletStatus, calculateGameContextScore, calculateDynamicStop,
    calculateDynamicTarget, timeRemaining_q1_full, pyInt, negIdx, mkTick,
    cfgBase, cfgDca, stShort90, posShort90]

end PaperTrader

namespace PaperTrader

/-- Truncation toward zero is below the value for nonnegative arguments. -/
lemma pyInt_cast_le (q : ℚ) (h : 0 ≤ q) : (pyInt q : ℚ) ≤ q := by
  unfold pyInt
  rw [if_pos h]
  exact Int.floor_le q

/-- A value whose truncation is at least 1 is itself at least 1. -/
lemma one_le_of_pyInt (q : ℚ) (h : 1 ≤ pyInt q) : 1 ≤ q := by
  unfold pyInt at h
  by_cases h0 : 0 ≤ q
  · rw [if_pos h0] at h
    exact_mod_cast Int.le_floor.mp h
  · rw [if_neg h0] at h
    push_neg at h0
    have h1 : 0 ≤ ⌊-q⌋ := Int.floor_nonneg.mpr (by linarith)
    omega

/-- Affordability of a fill sized from a budget: when the contract count
`int(size / p * 100)` is at least 1 and the budget `size` fits in the
bankroll, the fill cost `contracts * p / 100` cannot push the bankroll
below zero (a negative price makes the cost nonpositive). -/
lemma fill_keeps_bankroll (b size : ℚ) (p : Int) (hb : 0 ≤ b) (hs : size ≤ b)
    (hp : p ≠ 0) (h1 : 1 ≤ pyInt (size / (p : ℚ) * 100)) :
    0 ≤ b - (pyInt (size / (p : ℚ) * 100) : ℚ) * (p : ℚ) / 100 := by
  have hpq : ((p : ℚ) ≠ 0) := Int.cast_ne_zero.mpr hp
  rcases lt_or_gt_of_ne hpq with hneg | hpos
  · have hnc : (1 : ℚ) ≤ (pyInt (size / (p : ℚ) * 100) : ℚ) := by exact_mod_cast h1
    have h2 : (pyInt (size / (p : ℚ) * 100) : ℚ) * p ≤ 0 :=
      mul_nonpos_iff.mpr (Or.inl ⟨by linarith, hneg.le⟩)
    linarith
  · have hq1 : (1 : ℚ) ≤ size / (p : ℚ) * 100 := one_le_of_pyInt _ h1
    have hle : (pyInt (size / (p : ℚ) * 100) : ℚ) ≤ size / (p : ℚ) * 100 :=
      pyInt_cast_le _ (by linarith)
    have h2 : (pyInt (size / (p : ℚ) * 100) : ℚ) * p ≤ size / (p : ℚ) * 100 * p :=
      mul_le_mul_of_nonneg_right hle hpos.le
    have h3 : size / (p : ℚ) * 100 * p = size * 100 := by
      field_simp
    linarith

/-- A long entry never overdraws a nonnegative bankroll when the position
fraction lies in [0, 1]. -/
lemma enterLong_bankroll (cfg : Config) (st : BotState) (price : Int)
    (t : Tick) (m : Int) (hb : 0 ≤ st.bankroll) (h0 : 0 ≤ cfg.positionSizePct)
    (h1 : cfg.positionSizePct ≤ 1) (hp : price ≠ 0) :
    0 ≤ (enterLong cfg st price t m).1.bankroll := by
  unfold enterLong
  dsimp only
  split
  · exact hb
  · rename_i hc
    push_neg at hc
    exact fill_keeps_bankroll st.bankroll (st.bankroll * cfg.positionSizePct)
      price hb (by nlinarith) hp hc

/-- A short entry never overdraws a nonnegative bankroll when the position
fraction lies in [0, 1]. -/
lemma enterShort_bankroll (cfg : Config) (st : BotState) (price : Int)
    (t : Tick) (m : Int) (hb : 0 ≤ st.bankroll) (h0 : 0 ≤ cfg.positionSizePct)
    (h1 : cfg.positionSizePct ≤ 1) (hp : 100 - price ≠ 0) :
    0 ≤ (enterShort cfg st price t m).1.bankroll := by
  unfold enterShort
  dsimp only
  split
  · exact hb
  · rename_i hc
    push_neg at hc
    exact fill_keeps_bankroll st.bankroll (st.bankroll * cfg.positionSizePct)
      (100 - price) hb (by nlinarith) hp hc

/-- C4 (amended): entries preserve a nonnegative bankroll whenever the
configured position fraction lies in [0, 1]; DCA additions preserve a
nonnegative bankroll for every configuration. -/
theorem bankroll_nonneg_corrected :
    (∀ (cfg : Config) (st : BotState) (price : Int) (t : Tick),
      0 ≤ st.bankroll → 0 ≤ cfg.positionSizePct → cfg.positionSizePct ≤ 1 →
      0 ≤ (checkEntry cfg st price t).1.bankroll) ∧
    (∀ (cfg : Config) (st : BotState) (pos : Position) (price : Int) (t : Tick)
      (r : BotState × List Event),
      0 ≤ st.bankroll → checkDca cfg st pos price t = Except.ok r →
      0 ≤ r.1.bankroll) := by
  constructor
  · intro cfg st price t hb h0 h1
    unfold checkEntry
    split
    · exact hb
    rename_i hout
    push_neg at hout
    split
    · exact hb
    dsimp only
    split
    · exact hb
    split
    · exact enterLong_bankroll _ _ _ _ _ hb h0 h1 (by omega)
    split
    · exact enterShort_bankroll _ _ _ _ _ hb h0 h1 (by omega)
    · exact hb
  · intro cfg st pos price t r hb h
    cases hside : pos.side <;>
      simp only [checkDca, executeDcaAddition, hside] at h
    · split at h
      next => injection h with h; rw [← h]; exact hb
      next =>
      split at h
      next => injection h with h; rw [← h]; exact hb
      next =>
      split at h
      next => injection h with h; rw [← h]; exact hb
      next =>
      split at h
      next => injection h with h; rw [← h]; exact hb
      next =>
      split at h
      next => injection h with h; rw [← h]; exact hb
      next =>
      split at h
      next => injection h with h; rw [← h]; exact hb
      next hsize =>
      push_neg at hsize
      split at h
      next e heq => exact Except.noConfusion h
      next nc ac heq =>
        split at heq
        next => exact Except.noConfusion heq
        next hpz =>
          injection heq with heq
          injection heq with hnc hac
          subst hnc
          subst hac
          split at h
          next => injection h with h; rw [← h]; exact hb
          next hc =>
            push_neg at hc
            split at h
            next => exact Except.noConfusion h
            next hct =>
              injection h with h
              rw [← h]
              exact fill_keeps_bankroll st.bankroll _ price hb hsize hpz hc
    · split at h
      next => injection h with h; rw [← h]; exact hb
      next =>
      split at h
      next => injection h with h; rw [← h]; exact hb
      next =>
      split at h
      next => injection h with h; rw [← h]; exact hb
      next =>
      split at h
      next => injection h with h; rw [← h]; exact hb
      next =>
      split at h
      next => injection h with h; rw [← h]; exact hb
      next =>
      split at h
      next => injection h with h; rw [← h]; exact hb
      next hsize =>
      push_neg at hsize
      split at h
      next e heq => exact Except.noConfusion h
      next nc ac heq =>
        split at heq
        next => exact Except.noConfusion heq
        next hpz =>
          injection heq with heq
          injection heq with hnc hac
          subst hnc
          subst hac
          split at h
          next => injection h with h; rw [← h]; exact hb
          next hc =>
            push_neg at hc
            split at h
            next => exact Except.noConfusion h
            next hct =>
              injection h with h
              rw [← h]
              exact fill_keeps_bankroll st.bankroll _ (100 - price) hb hsize hpz hc

/-- The short position after the 75-dollar DCA addition at 96. -/
def posShortDca : Position :=
  { posShort90 with
    contracts := 1975
    dcaCount := 1
    avgEntryPrice := 95
    totalCost := 85
    dcaHistory := [{ price := 96, contracts := 1875, cost := 75, tick := 7 }] }

/-- The session state after that DCA addition. -/
def stShortDca : BotState :=
  { stShort90 with bankroll := 425, position := some posShortDca }

/-- A concrete executed DCA addition: 1875 no-side contracts at 4 cents for
75 dollars, moving the average entry to 95. -/
lemma dca_exec_96 : checkDca cfgDca stShort90 posShort90 96 (mkTick 7 96) =
    Except.ok (stShortDca, []) := by
  norm_num [checkDca, executeDcaAddition, dcaSize, calculateGameContextScore,
    timeRemaining_q1_full, pyInt, mkTick, cfgBase, cfgDca, stShort90,
    posShort90, stShortDca, posShortDca]

/-- C4 witness: the amended theorem applied to a concrete entry (bankroll
1000, entry cost 500) and to the concrete DCA addition above. -/
theorem bankroll_nonneg_witness :
    0 ≤ (checkEntry cfgBase stH4045 50 (mkTick 3 50)).1.bankroll ∧
    0 ≤ ((stShortDca, ([] : List Event))).1.bankroll :=
  ⟨bankroll_nonneg_corrected.1 cfgBase stH4045 50 (mkTick 3 50)
      (by norm_num [stH4045, stH40]) (by norm_num [cfgBase])
      (by norm_num [cfgBase]),
   bankroll_nonneg_corrected.2 cfgDca stShort90 posShort90 96 (mkTick 7 96)
      (stShortDca, []) (by norm_num [stShort90]) dca_exec_96⟩

end PaperTrader
namespace PaperTrader

/-- C5 (amended): the momentum lookback is fixed at 2 ticks (the source
hardcodes `price_history[-1] - price_history[-3]` and a minimum of 3
buffered prices; there is no `momentum_lookback` parameter), and for a flat
engine with bankroll above 1, price in [10, 90], at least 3 buffered prices
and the game-context filter disabled, the entry opens a long if and only if
that momentum meets `momentum_threshold` AND the sized entry
`int(bankroll * position_size_pct / price * 100)` is at least one
contract. -/
theorem entry_signal_corrected :
    ∀ (cfg : Config) (st : BotState) (price : Int) (t : Tick),
    cfg.enableGameContext = false → st.position = none → 1 < st.bankroll →
    10 ≤ price → price ≤ 90 → 3 ≤ st.priceHistory.length →
    (((checkEntry cfg st price t).1.position).map Position.side = some Side.long ↔
      negIdx st.priceHistory 1 - negIdx st.priceHistory 3 ≥ cfg.momentumThreshold ∧
      1 ≤ pyInt (st.bankroll * cfg.positionSizePct / (price : ℚ) * 100)) := by
  intro cfg st price t hctx hflat hbk h10 h90 hlen
  unfold checkEntry
  rw [if_neg (by omega)]
  rw [if_neg (by omega)]
  simp only [hctx, Bool.false_eq_true, if_false]
  by_cases hm : negIdx st.priceHistory 1 - negIdx st.priceHistory 3 ≥
      cfg.momentumThreshold
  · rw [if_pos hm]
    unfold enterLong
    dsimp only
    by_cases hc : pyInt (st.bankroll * cfg.positionSizePct / (price : ℚ) * 100) < 1
    · rw [if_pos hc]
      simp only [hflat, Option.map_none]
      constructor
      · intro hcontra
        simp at hcontra
      · rintro ⟨-, h1⟩
        omega
    · rw [if_neg hc]
      push_neg at hc
      simp only [Option.map_some]
      constructor
      · intro _
        exact ⟨hm, hc⟩
      · intro _
        rfl
  · rw [if_neg hm]
    by_cases hs : negIdx st.priceHistory 1 - negIdx st.priceHistory 3 ≤
        -cfg.momentumThreshold
    · rw [if_pos hs]
      unfold enterShort
      dsimp only
      split
      · simp only [hflat, Option.map_none]
        constructor
        · intro hcontra
          simp at hcontra
        · rintro ⟨h1, -⟩
          exact absurd h1 hm
      · simp only [Option.map_some]
        constructor
        · intro hcontra
          simp at hcontra
        · rintro ⟨h1, -⟩
          exact absurd h1 hm
    · rw [if_neg hs]
      simp only [hflat, Option.map_none]
      constructor
      · intro hcontra
        simp at hcontra
      · rintro ⟨h1, -⟩
        exact absurd h1 hm

/-- Flat engine holding 500 with history [50, 50, 59] (momentum 9). -/
def stC5w : BotState :=
  { stH40 with
    bankroll := 500
    startingBankroll := 500
    priceHistory := [50, 50, 59]
    openingHomePrice := some 50
    openingAwayPrice := some 50 }

/-- C5 witness: on that state the amended criterion fires a long entry at
59 (momentum 9 at threshold 8, 423 contracts). -/
theorem entry_signal_witness :
    ((checkEntry cfgBase stC5w 59 (mkTick 4 59)).1.position).map Position.side =
      some Side.long :=
  (entry_signal_corrected cfgBase stC5w 59 (mkTick 4 59) rfl rfl
      (by norm_num [stC5w, stH40]) (by norm_num) (by norm_num)
      (by norm_num [stC5w, stH40])).mpr
    ⟨by decide, by norm_num [stC5w, stH40, cfgBase, pyInt]⟩

end PaperTrader
namespace PaperTrader

/-- Wallet-conservation invariant: the starting bankroll always equals the
free bankroll plus the dollars committed to the open position minus the
realized pnl booked so far. -/
def Conserved (st : BotState) : Prop :=
  st.bankroll + openCost st - st.totalPnl = st.startingBankroll

/-- The initial fill cost of the open position agrees with its accumulated
total cost (true until a DCA addition diverges them). -/
def CostConsistent (st : BotState) : Prop :=
  ∀ p, st.position = some p → p.cost = p.totalCost

/-- Accepting a tick changes neither wallet fields nor the position. -/
lemma acceptTick_proj (st : BotState) (t : Tick) :
    (acceptTick st t).bankroll = st.bankroll ∧
    (acceptTick st t).position = st.position ∧
    (acceptTick st t).totalPnl = st.totalPnl ∧
    (acceptTick st t).startingBankroll = st.startingBankroll := by
  unfold acceptTick storeOpeningPrice
  split <;> exact ⟨rfl, rfl, rfl, rfl⟩

/-- Exits preserve conservation: the proceeds credited to the bankroll are
offset by the booked pnl and the freed position cost, provided the
position's initial cost still equals its total cost. -/
lemma executeExit_inv (cfg : Config) (st : BotState) (pos : Position)
    (price : Int) (reason : String) (hpos : st.position = some pos)
    (hc : pos.cost = pos.totalCost) (hinv : Conserved st) :
    Conserved (executeExit cfg st pos price reason).1 ∧
    (executeExit cfg st pos price reason).1.position = none ∧
    (executeExit cfg st pos price reason).1.startingBankroll =
      st.startingBankroll := by
  have hoc : openCost st = pos.totalCost := by simp [openCost, hpos]
  unfold Conserved at hinv ⊢
  rw [hoc] at hinv
  refine ⟨?_, rfl, rfl⟩
  unfold executeExit openCost
  dsimp only
  linarith

/-- Full leaf form of an executed exit: conservation, vacuous cost
consistency and contract preservation (the position is cleared). -/
lemma exit_leaf (cfg : Config) (st : BotState) (pos : Position) (price : Int)
    (reason : String) (hpos : st.position = some pos)
    (hc : pos.cost = pos.totalCost) (hinv : Conserved st) :
    Conserved (executeExit cfg st pos price reason).1 ∧
    CostConsistent (executeExit cfg st pos price reason).1 ∧
    (executeExit cfg st pos price reason).1.startingBankroll =
      st.startingBankroll ∧
    (∀ p2, (executeExit cfg st pos price reason).1.position = some p2 →
      p2.contracts = pos.contracts) := by
  obtain ⟨e1, e2, e3⟩ := executeExit_inv cfg st pos price reason hpos hc hinv
  exact ⟨e1, fun p hp => by rw [e2] at hp; exact Option.noConfusion hp, e3,
    fun p2 hp => by rw [e2] at hp; exact Option.noConfusion hp⟩

/-- Replacing the open position with one of equal total cost preserves the
conservation identity. -/
lemma conserved_with_position (st : BotState) (p2 : Position)
    (h : openCost st = p2.totalCost) (hinv : Conserved st) :
    Conserved { st with position := some p2 } := by
  show st.bankroll + p2.totalCost - st.totalPnl = st.startingBankroll
  rw [← h]
  exact hinv

/-- The exit check preserves conservation and cost consistency, leaves the
starting bankroll alone, and never changes the contract count of a
position that survives it. -/
lemma checkExit_inv (cfg : Config) (st : BotState) (pos : Position)
    (price : Int) (t : Tick) (hpos : st.position = some pos)
    (hc : pos.cost = pos.totalCost) (hinv : Conserved st) :
    Conserved (checkExit cfg st pos price t).1 ∧
    CostConsistent (checkExit cfg st pos price t).1 ∧
    (checkExit cfg st pos price t).1.startingBankroll = st.startingBankroll ∧
    (∀ p2, (checkExit cfg st pos price t).1.position = some p2 →
      p2.contracts = pos.contracts) := by
  have hoc : openCost st = pos.totalCost := by simp [openCost, hpos]
  cases hside : pos.side <;> simp only [checkExit, hside]
  case long =>
    have hinvW := conserved_with_position st
      { pos with high := some (max (pos.high.getD pos.entryPrice) price) }
      hoc hinv
    repeat' split
    all_goals first
      | exact exit_leaf cfg _ _ price _ rfl hc hinvW
      | (refine ⟨hinvW, ?_, rfl, ?_⟩ <;>
          (intro p hp
           simp at hp
           rw [← hp]
           try exact hc
           try rfl))
  case short =>
    have hinvW := conserved_with_position st
      { pos with low := some (min (pos.low.getD pos.entryPrice) price) }
      hoc hinv
    repeat' split
    all_goals first
      | exact exit_leaf cfg _ _ price _ rfl hc hinvW
      | (refine ⟨hinvW, ?_, rfl, ?_⟩ <;>
          (intro p hp
           simp at hp
           rw [← hp]
           try exact hc
           try rfl))

/-- A long entry moves exactly the position cost from the bankroll into the
new position, preserving conservation and cost consistency. -/
lemma enterLong_inv (cfg : Config) (st : BotState) (price : Int) (t : Tick)
    (m : Int) (hflat : st.position = none) (hinv : Conserved st) :
    Conserved (enterLong cfg st price t m).1 ∧
    CostConsistent (enterLong cfg st price t m).1 ∧
    (enterLong cfg st price t m).1.startingBankroll = st.startingBankroll := by
  have hinv' : st.bankroll - st.totalPnl = st.startingBankroll := by
    have h0 : openCost st = 0 := by simp [openCost, hflat]
    unfold Conserved at hinv
    rw [h0] at hinv
    linarith
  unfold enterLong
  dsimp only
  split
  · exact ⟨hinv, fun p hp => absurd hp (by rw [hflat]; simp), rfl⟩
  · refine ⟨?_, ?_, rfl⟩
    · unfold Conserved openCost
      dsimp only
      linarith
    · intro p hp
      simp at hp
      rw [← hp]

/-- A short entry moves exactly the position cost from the bankroll into
the new position, preserving conservation and cost consistency. -/
lemma enterShort_inv (cfg : Config) (st : BotState) (price : Int) (t : Tick)
    (m : Int) (hflat : st.position = none) (hinv : Conserved st) :
    Conserved (enterShort cfg st price t m).1 ∧
    CostConsistent (enterShort cfg st price t m).1 ∧
    (enterShort cfg st price t m).1.startingBankroll = st.startingBankroll := by
  have hinv' : st.bankroll - st.totalPnl = st.startingBankroll := by
    have h0 : openCost st = 0 := by simp [openCost, hflat]
    unfold Conserved at hinv
    rw [h0] at hinv
    linarith
  unfold enterShort
  dsimp only
  split
  · exact ⟨hinv, fun p hp => absurd hp (by rw [hflat]; simp), rfl⟩
  · refine ⟨?_, ?_, rfl⟩
    · unfold Conserved openCost
      dsimp only
      linarith
    · intro p hp
      simp at hp
      rw [← hp]

/-- Entry evaluation preserves conservation and cost consistency. -/
lemma checkEntry_inv (cfg : Config) (st : BotState) (price : Int) (t : Tick)
    (hflat : st.position = none) (hinv : Conserved st) :
    Conserved (checkEntry cfg st price t).1 ∧
    CostConsistent (checkEntry cfg st price t).1 ∧
    (checkEntry cfg st price t).1.startingBankroll = st.startingBankroll := by
  have hbase : Conserved st ∧ CostConsistent st ∧
      st.startingBankroll = st.startingBankroll :=
    ⟨hinv, fun p hp => absurd hp (by rw [hflat]; simp), rfl⟩
  unfold checkEntry
  repeat' (first | split | dsimp only)
  all_goals first
    | exact hbase
    | exact enterLong_inv cfg st price t _ hflat hinv
    | exact enterShort_inv cfg st price t _ hflat hinv

/-- With DCA disabled, the DCA check is the identity. -/
lemma checkDca_disabled (cfg : Config) (st : BotState) (pos : Position)
    (price : Int) (t : Tick) (h : cfg.enableDca = false) :
    checkDca cfg st pos price t = Except.ok (st, []) := by
  simp [checkDca, h]

/-- The decision block preserves conservation when DCA is disabled. -/
lemma tickMain_inv (cfg : Config) (st2 : BotState) (price : Int) (t : Tick)
    (x : BotState × List Event) (hd : cfg.enableDca = false)
    (hinv : Conserved st2) (hcost : CostConsistent st2)
    (h : tickMain cfg st2 price t = Except.ok x) :
    Conserved x.1 ∧ CostConsistent x.1 ∧
    x.1.startingBankroll = st2.startingBankroll := by
  unfold tickMain at h
  cases hpos : st2.position with
  | some pos =>
    simp only [hpos] at h
    try dsimp only at h
    obtain ⟨e1, e2, e3, e4⟩ := checkExit_inv cfg st2 pos price t hpos
      (hcost pos hpos) hinv
    split at h
    next pos2 heq =>
      rw [checkDca_disabled _ _ _ _ _ hd] at h
      try dsimp only at h
      injection h with h
      rw [← h]
      exact ⟨e1, e2, e3⟩
    next heq =>
      injection h with h
      rw [← h]
      exact ⟨e1, e2, e3⟩
  | none =>
    simp only [hpos] at h
    split at h
    · injection h with h
      rw [← h]
      exact checkEntry_inv cfg st2 price t hpos hinv
    · injection h with h
      rw [← h]
      exact ⟨hinv, hcost, rfl⟩

/-- One processed tick preserves conservation when DCA is disabled. -/
lemma onTick_inv (cfg : Config) (st : BotState) (t : Tick) (st2 : BotState)
    (evs : List Event) (hd : cfg.enableDca = false) (hinv : Conserved st)
    (hcost : CostConsistent st)
    (h : onTick cfg st t = Except.ok (st2, evs)) :
    Conserved st2 ∧ CostConsistent st2 ∧
    st2.startingBankroll = st.startingBankroll := by
  unfold onTick at h
  split at h
  · injection h with h
    injection h with h1 h2
    subst h1
    exact ⟨hinv, hcost, rfl⟩
  split at h
  · injection h with h
    injection h with h1 h2
    subst h1
    exact ⟨hinv, hcost, rfl⟩
  · obtain ⟨a1, a2, a3, a4⟩ := acceptTick_proj st t
    have hinvA : Conserved (acceptTick st t) := by
      unfold Conserved at hinv ⊢
      rw [a1, a3, a4, show openCost (acceptTick st t) = openCost st from by
        unfold openCost; rw [a2]]
      exact hinv
    have hcostA : CostConsistent (acceptTick st t) := by
      intro p hp
      exact hcost p (a2 ▸ hp)
    split at h
    next s heq =>
      split at h
      next ew heqW =>
        injection h with h
        injection h with h1 h2
        obtain ⟨m1, m2, m3⟩ := tickMain_inv cfg (acceptTick st t) t.homePrice t
          s hd hinvA hcostA heq
        subst h1
        exact ⟨m1, m2, by rw [m3, a4]⟩
      next => exact Except.noConfusion h
    next => exact Except.noConfusion h

/-- A whole run of ticks preserves conservation when DCA is disabled. -/
lemma runTicks_inv (cfg : Config) (hd : cfg.enableDca = false) :
    ∀ (ts : List Tick) (st st2 : BotState) (evs : List Event),
      Conserved st → CostConsistent st →
      runTicks cfg st ts = Except.ok (st2, evs) →
      Conserved st2 ∧ CostConsistent st2 ∧
      st2.startingBankroll = st.startingBankroll := by
  intro ts
  induction ts with
  | nil =>
    intro st st2 evs h1 h2 h
    unfold runTicks at h
    injection h with h
    injection h with ha hb
    subst ha
    exact ⟨h1, h2, rfl⟩
  | cons t ts ih =>
    intro st st2 evs h1 h2 h
    unfold runTicks at h
    split at h
    next s heq =>
      split at h
      next s2 heq2 =>
        injection h with h
        injection h with ha hb
        obtain ⟨i1, i2, i3⟩ := onTick_inv cfg st t s.1 s.2 hd h1 h2 heq
        obtain ⟨j1, j2, j3⟩ := ih s.1 s2.1 s2.2 i1 i2 heq2
        subst ha
        exact ⟨j1, j2, by rw [j3, i3]⟩
      next => exact Except.noConfusion h
    next => exact Except.noConfusion h

/-- C1 (amended): from engine creation, under any tick sequence with DCA
disabled, the starting bankroll equals the bankroll plus the open
position's total cost MINUS the realized pnl (the claim's `+ pnl` has the
sign wrong), and the starting bankroll itself never changes.  With DCA
enabled the identity can fail because `_execute_exit` books
`pnl = proceeds - pos['cost']` against the initial fill only. -/
theorem wallet_conservation_corrected :
    ∀ (cfg : Config) (b : ℚ) (ts : List Tick) (st : BotState)
      (evs : List Event),
      cfg.enableDca = false →
      runTicks cfg (initState b) ts = Except.ok (st, evs) →
      st.bankroll + openCost st - st.totalPnl = st.startingBankroll ∧
      st.startingBankroll = b := by
  intro cfg b ts st evs hd h
  have base1 : Conserved (initState b) := by
    unfold Conserved openCost initState
    norm_num
  have base2 : CostConsistent (initState b) := by
    intro p hp
    simp [initState] at hp
  obtain ⟨c1, c2, c3⟩ := runTicks_inv cfg hd ts (initState b) st evs base1
    base2 h
  exact ⟨c1, by rw [c3]; rfl⟩

/-- C1 witness: the amended identity evaluated on the concrete profitable
round trip (1150 + 0 - 150 = 1000). -/
theorem wallet_conservation_witness :
    stC1Final.bankroll + openCost stC1Final - stC1Final.totalPnl =
      stC1Final.startingBankroll ∧ stC1Final.startingBankroll = 1000 :=
  wallet_conservation_corrected cfgBase 1000
    [mkTick 1 40, mkTick 2 45, mkTick 3 50, mkTick 4 65] stC1Final [] rfl
    c1_run

end PaperTrader
namespace PaperTrader

/-- Entry evaluation never changes the starting bankroll. -/
lemma checkEntry_starting (cfg : Config) (st : BotState) (price : Int)
    (t : Tick) :
    (checkEntry cfg st price t).1.startingBankroll = st.startingBankroll := by
  unfold checkEntry enterLong enterShort
  repeat' (first | split | dsimp only)

/-- Exit evaluation never changes the starting bankroll. -/
lemma checkExit_starting (cfg : Config) (st : BotState) (pos : Position)
    (price : Int) (t : Tick) :
    (checkExit cfg st pos price t).1.startingBankroll = st.startingBankroll := by
  cases hside : pos.side <;> simp only [checkExit, hside] <;> repeat' split
  all_goals rfl

/-- A position that survives the exit check keeps its contract count (only
the watermark moves). -/
lemma checkExit_contracts (cfg : Config) (st : BotState) (pos : Position)
    (price : Int) (t : Tick) :
    ∀ p2, (checkExit cfg st pos price t).1.position = some p2 →
      p2.contracts = pos.contracts := by
  intro p2 hp
  cases hside : pos.side <;> simp only [checkExit, hside] at hp <;>
    repeat' split at hp
  all_goals first
    | (simp at hp
       rw [← hp])
    | simp [executeExit] at hp

/-- A DCA execution succeeds whenever both fill prices are nonzero and the
existing contract count is nonnegative, and it preserves the starting
bankroll. -/
lemma executeDca_ok (cfg : Config) (st : BotState) (pos : Position)
    (price : Int) (t : Tick) (size : ℚ) (hp : ¬ price = 0)
    (hnp : ¬ (100 : Int) - price = 0) (hc : 0 ≤ pos.contracts) :
    ∃ s, executeDcaAddition cfg st pos price t size = Except.ok s ∧
      s.1.startingBankroll = st.startingBankroll := by
  cases hside : pos.side <;> simp only [executeDcaAddition, hside]
  · rw [if_neg hp]
    dsimp only
    split
    · exact ⟨(st, []), rfl, rfl⟩
    · rename_i hnc
      push_neg at hnc
      rw [if_neg (by omega)]
      exact ⟨_, rfl, rfl⟩
  · rw [if_neg hnp]
    dsimp only
    split
    · exact ⟨(st, []), rfl, rfl⟩
    · rename_i hnc
      push_neg at hnc
      rw [if_neg (by omega)]
      exact ⟨_, rfl, rfl⟩

/-- The DCA check succeeds under the same conditions. -/
lemma checkDca_ok (cfg : Config) (st : BotState) (pos : Position)
    (price : Int) (t : Tick) (hp : ¬ price = 0)
    (hnp : ¬ (100 : Int) - price = 0) (hc : 0 ≤ pos.contracts) :
    ∃ s, checkDca cfg st pos price t = Except.ok s ∧
      s.1.startingBankroll = st.startingBankroll := by
  unfold checkDca
  repeat' (first | split | dsimp only)
  all_goals first
    | exact ⟨_, rfl, rfl⟩
    | exact executeDca_ok cfg st pos price t _ hp hnp hc

/-- The wallet broadcast succeeds whenever either no broadcast function is
attached or the starting bankroll is nonzero. -/
lemma walletEvents_ok (cfg : Config) (st : BotState)
    (h : cfg.hasBroadcast = true → st.startingBankroll ≠ 0) :
    ∃ ew, walletEvents cfg st = Except.ok ew := by
  unfold walletEvents getWalletStatus
  split
  · rename_i hb
    rw [if_neg (h hb)]
    exact ⟨_, rfl⟩
  · exact ⟨[], rfl⟩

/-- C10 (amended): `on_tick` returns normally for every well-formed engine
state (nonnegative contract count on any open position, nonzero starting
bankroll when a broadcast function is attached) and every tick with home
price in [0, 99].  At home price 100 an open short that reaches the DCA
addition divides by `no_price = 0` and raises, so totality on the claimed
full range [0, 100] fails (see the counterexample). -/
theorem on_tick_total_corrected :
    ∀ (cfg : Config) (st : BotState) (t : Tick),
      (∀ p, st.position = some p → 0 ≤ p.contracts) →
      0 ≤ t.homePrice → t.homePrice ≤ 99 →
      (cfg.hasBroadcast = true → st.startingBankroll ≠ 0) →
      ∃ out, onTick cfg st t = Except.ok out := by
  intro cfg st t hwf h0 h99 hsb
  unfold onTick
  split
  · exact ⟨_, rfl⟩
  split
  · exact ⟨_, rfl⟩
  rename_i hact hpz
  obtain ⟨a1, a2, a3, a4⟩ := acceptTick_proj st t
  have hmain : ∃ s, tickMain cfg (acceptTick st t) t.homePrice t =
      Except.ok s ∧ s.1.startingBankroll = st.startingBankroll := by
    unfold tickMain
    cases hpos : (acceptTick st t).position with
    | none =>
      dsimp only
      split
      next hbk => exact ⟨_, rfl, by rw [checkEntry_starting]; exact a4⟩
      next hbk => exact ⟨_, rfl, a4⟩
    | some pos =>
      have hcw : 0 ≤ pos.contracts := hwf pos (by rw [← a2]; exact hpos)
      dsimp only
      split
      next pos2 heq =>
        have hc2 := checkExit_contracts cfg (acceptTick st t) pos t.homePrice
          t pos2 heq
        obtain ⟨sd, hsd, hsdsb⟩ := checkDca_ok cfg
          (checkExit cfg (acceptTick st t) pos t.homePrice t).1 pos2
          t.homePrice t hpz (by omega) (by rw [hc2]; exact hcw)
        rw [hsd]
        exact ⟨_, rfl, by rw [hsdsb, checkExit_starting]; exact a4⟩
      next heq =>
        exact ⟨_, rfl, by rw [checkExit_starting]; exact a4⟩
  obtain ⟨s, hs, hssb⟩ := hmain
  obtain ⟨ew, hew⟩ := walletEvents_ok cfg s.1 (fun hb => by
    rw [hssb]; exact hsb hb)
  refine ⟨(s.1, s.2 ++ ew), ?_⟩
  rw [hs]
  dsimp only
  rw [hew]

/-- C10 witness: a fresh broadcast-attached engine with bankroll 7
processes a tick at 55 without raising. -/
theorem on_tick_total_witness :
    ∃ out, onTick cfgCast (initState 7) (mkTick 1 55) = Except.ok out :=
  on_tick_total_corrected cfgCast (initState 7) (mkTick 1 55)
    (fun p hp => absurd hp (by simp [initState])) (by decide) (by decide)
    (fun _ => by norm_num [initState])

end PaperTrader
